import Mathlib

/-!
Verification of the UDP send/receive test tool (udp_send_test).

This file gives a shallow embedding of the core logic of the repository:
the packet pacer (src/tx.rs, src/link.rs Tx branch), the arrival recorder
(src/rx.rs, src/link.rs Rx branch), the statistics kept by the GUI loop
(src/main.rs), and the link lifecycle (stop / reconfigure ordering in
src/tx.rs Drop and src/main.rs draw_gui).

Modelling conventions:
* Rust `i32` arithmetic is modelled as `Int` with an explicit signed 32-bit
  wraparound (`wrap32`) where the code can overflow (release-mode semantics).
* Wall-clock readings (`SystemTime`) and the `f64`/`f32` second values derived
  from them are modelled as exact rationals (`ℚ`); `UNIX_EPOCH` is `0`.
* Fallible operations are modelled by explicit result types; a Rust
  `expect`/panic is a distinguished `panicked` outcome.
* Background loops are modelled by their per-iteration step functions plus,
  for ordering properties, by the list of side effects in source order.
-/

namespace UdpSendTest

/-- Signed 32-bit wraparound: `wrap32 x` is the value of the Rust `i32`
holding `x` under release-mode (two's-complement wrapping) semantics. -/
def wrap32 (x : Int) : Int := (x + 2 ^ 31) % 2 ^ 32 - 2 ^ 31

/-- Wraparound is the identity on in-range values. -/
theorem wrap32_eq_self {x : Int} (h1 : -2 ^ 31 ≤ x) (h2 : x < 2 ^ 31) :
    wrap32 x = x := by
  unfold wrap32
  omega

/-- Wrapping an already-wrapped left summand gives the same result as wrapping
the exact sum. -/
theorem wrap32_add_left (a b : Int) : wrap32 (wrap32 a + b) = wrap32 (a + b) := by
  unfold wrap32
  omega

/-! ## Packet pacer (src/tx.rs lines 49-65, src/link.rs lines 63-101)

The pacer thread records `begin = Instant::now()` once, sets
`next_tx_time_us = send_interval_us`, and on each iteration busy-waits until
`Instant::now() - begin >= next_tx_time_us` (or the run flag clears), then
performs `next_tx_time_us += send_interval_us` and sends one datagram.
The accumulator update reads neither the clock nor the amount of overrun,
so the deadline schedule is fixed relative to `begin`. -/

/-- One pacer iteration's update of the `next_tx_time_us` accumulator
(`next_tx_time_us += send_interval_us`, an `i32` addition). The time `now`
observed when the busy-wait exits is taken as an argument to make explicit
that the update does not depend on it. -/
def txStepNext (send_interval_us : Int) (now : Int) (next_tx_time_us : Int) : Int :=
  wrap32 (next_tx_time_us + send_interval_us)

/-- Value of `next_tx_time_us` after `k` completed sends: it starts at
`send_interval_us` and is bumped once per send. -/
def txNextAfter (send_interval_us : Int) : Nat → Int
  | 0 => send_interval_us
  | k + 1 => txStepNext send_interval_us 0 (txNextAfter send_interval_us k)

/-- Transmit deadline used by the busy-wait before the `k`-th send
(1-indexed): the loop waits until `begin + next_tx_time_us`, where
`next_tx_time_us` is the accumulator value after `k - 1` sends. -/
def txDeadline (tbegin send_interval_us : Int) (k : Nat) : Int :=
  tbegin + txNextAfter send_interval_us (k - 1)

/-- Closed form of the accumulator for an in-range interval: after `k` sends
it holds the 32-bit wrap of `(k+1) * send_interval_us`. -/
theorem txNextAfter_closed (si : Int) (h1 : -2 ^ 31 ≤ si) (h2 : si < 2 ^ 31) :
    ∀ k : Nat, txNextAfter si k = wrap32 ((k + 1) * si) := by
  intro k
  induction k with
  | zero =>
    simp only [txNextAfter, Nat.cast_zero, zero_add, one_mul]
    exact (wrap32_eq_self h1 h2).symm
  | succ n ih =>
    simp only [txNextAfter, txStepNext, ih, wrap32_add_left]
    congr 1
    push_cast
    ring

/-! ## Link lifecycle ordering (src/tx.rs lines 16-21, src/main.rs lines 359-408)

`Drop for Tx` (identically `Drop for Rx` and the reconfigure branch of
`draw_gui`) first stores `false` into the atomic run flag and then joins the
background thread. The reconfigure branch then creates a fresh channel,
resets the GUI statistics, validates both addresses, and only then calls
`Link::new`, which binds the socket and spawns the new thread. These traces
list those side effects in source order. -/

/-- Side effects of the stop / reconfigure paths, in source order. -/
inductive LifecycleEvent
  | storeRunFalse
  | joinThread
  | mkChannel
  | resetStats
  | parseAddrs
  | bindSocket
  | spawnThread
  deriving DecidableEq

/-- Effect trace of `Drop for Tx` (src/tx.rs lines 16-21): clear the run
flag, then join. -/
def txDropTrace : List LifecycleEvent := [.storeRunFalse, .joinThread]

/-- Effect trace of the reconfigure branch of `draw_gui`
(src/main.rs lines 364-408) on the path where address parsing and the
socket bind succeed. -/
def reconfigureTrace : List LifecycleEvent :=
  [.storeRunFalse, .joinThread, .mkChannel, .resetStats, .parseAddrs,
   .bindSocket, .spawnThread]

/-- Effect trace of the reconfigure branch when `UdpSocket::bind` inside
`Link::new` fails: `Link::new` returns `Err` before `thread::spawn`. -/
def reconfigureTraceBindFail : List LifecycleEvent :=
  [.storeRunFalse, .joinThread, .mkChannel, .resetStats, .parseAddrs,
   .bindSocket]

/-- Effect trace of the reconfigure branch when either address fails to
parse: `Link::new` is never called. -/
def reconfigureTraceParseFail : List LifecycleEvent :=
  [.storeRunFalse, .joinThread, .mkChannel, .resetStats, .parseAddrs]

/-! ## Reconfigure equality check (src/main.rs lines 347-364)

`draw_gui` compares the GUI's desired settings against the fields stored on
the running `Link`. The address/port comparison depends on the desired
mode: in Tx mode it compares target IP, target port and bind IP; in Rx mode
it compares bind IP and bind port. A restart is forced when `link_ok` is
false or any compared field differs. GUI ports are `i32` values clamped to
`1..=65535` and cast to `u16` for the comparison; they are modelled as the
`u16` values directly. -/

/-- Transmission direction of a link (src/link.rs lines 11-14). -/
inductive LinkMode
  | Tx
  | Rx
  deriving DecidableEq

/-- Fields of the running `Link` consulted by the reconfigure check
(src/main.rs lines 348-364): the variant of the `Link` struct carrying
separate bind and target addresses. -/
structure LinkFields where
  link_mode : LinkMode
  bind_address : String
  bind_port : Nat
  target_address : String
  target_port : Nat
  packet_size : Int
  send_interval_us : Int
  deriving DecidableEq

/-- Desired configuration held in the GUI `State`, plus the `link_ok`
flag recording whether the current link was constructed successfully. -/
structure GuiConfig where
  link_mode : LinkMode
  bind_ip : String
  bind_port : Nat
  target_ip : String
  target_port : Nat
  packet_size : Int
  send_interval_us : Int
  link_ok : Bool
  deriving DecidableEq

/-- Mode-dependent address/port comparison (src/main.rs lines 347-358). -/
def address_and_port_ok (st : GuiConfig) (link : LinkFields) : Bool :=
  match st.link_mode with
  | .Tx =>
    st.target_ip == link.target_address && st.target_port == link.target_port
      && st.bind_ip == link.bind_address
  | .Rx => st.bind_ip == link.bind_address && st.bind_port == link.bind_port

/-- Condition under which `draw_gui` stops the running link and starts a
new one (src/main.rs lines 359-364). -/
def needsRestart (st : GuiConfig) (link : LinkFields) : Bool :=
  !st.link_ok || st.link_mode != link.link_mode
    || !address_and_port_ok st link || st.packet_size != link.packet_size
    || st.send_interval_us != link.send_interval_us

/-! ## Constructor outcomes (src/tx.rs lines 25-73, src/rx.rs lines 28-86,
src/link.rs lines 35-133)

All three constructors parse address strings with
`IpAddr::from_str(..).expect("error")` — a parse failure panics — and then
propagate `UdpSocket::bind` and `set_read_timeout` failures with `?`. The
background thread is spawned only after all of these succeed. The parse
and socket operations live in the standard library, so they are modelled
by their outcomes. -/

/-- Outcome of `IpAddr::from_str` on an address string: `err` means the
string is syntactically invalid. -/
inductive ParseOutcome
  | ok
  | err
  deriving DecidableEq

/-- Outcome of a socket operation (`UdpSocket::bind`,
`set_read_timeout`). -/
inductive SockOutcome
  | ok
  | err
  deriving DecidableEq

/-- How a constructor call returns to its caller. -/
inductive StartOutcome
  | panicked (msg : String)
  | errReturned
  | okReturned
  deriving DecidableEq

/-- Constructor return behaviour plus the number of background threads it
spawned. -/
structure StartResult where
  outcome : StartOutcome
  threadsSpawned : Nat
  deriving DecidableEq

/-- Control flow of `Tx::new` (src/tx.rs lines 25-73): parse the bind
address (`expect "error"`), parse the target address (`expect "error"`),
bind the socket (`?`), set the read timeout (`?`), then spawn the pacer
thread and return `Ok`. -/
def Tx.new (parseBind parseTarget : ParseOutcome)
    (bind setTimeout : SockOutcome) : StartResult :=
  match parseBind with
  | .err => ⟨.panicked "error", 0⟩
  | .ok =>
    match parseTarget with
    | .err => ⟨.panicked "error", 0⟩
    | .ok =>
      match bind with
      | .err => ⟨.errReturned, 0⟩
      | .ok =>
        match setTimeout with
        | .err => ⟨.errReturned, 0⟩
        | .ok => ⟨.okReturned, 1⟩

/-- Control flow of `Rx::new` (src/rx.rs lines 28-86): parse the bind
address (`expect "error"`), bind (`?`), set the read timeout (`?`), then
spawn the receive thread and return `Ok`. -/
def Rx.new (parseBind : ParseOutcome) (bind setTimeout : SockOutcome) :
    StartResult :=
  match parseBind with
  | .err => ⟨.panicked "error", 0⟩
  | .ok =>
    match bind with
    | .err => ⟨.errReturned, 0⟩
    | .ok =>
      match setTimeout with
      | .err => ⟨.errReturned, 0⟩
      | .ok => ⟨.okReturned, 1⟩

/-- Control flow of `Link::new` (src/link.rs lines 35-133): parse the
single address string (`expect "error"`, used for both the bind and the
target socket address), bind (`?`), set the read timeout (`?`), then spawn
the link thread and return `Ok`. -/
def Link.new (parseAddress : ParseOutcome) (bind setTimeout : SockOutcome) :
    StartResult :=
  match parseAddress with
  | .err => ⟨.panicked "error", 0⟩
  | .ok =>
    match bind with
    | .err => ⟨.errReturned, 0⟩
    | .ok =>
      match setTimeout with
      | .err => ⟨.errReturned, 0⟩
      | .ok => ⟨.okReturned, 1⟩

/-! ## Arrival recorder (src/rx.rs lines 36-86)

The receive thread keeps `last_rx_time` (a `SystemTime`, starting at
`UNIX_EPOCH`) and two shared vectors: `t_rx_data` (arrival times as seconds
since the epoch) and `t_diff_data` (inter-arrival gaps). On a successful
receive it takes `SystemTime::now()`, converts it with
`duration_since(UNIX_EPOCH).expect(..)` and
`duration_since(last_rx_time).expect(..)` — both panic if the clock reads
earlier than the reference — pushes the arrival time, pushes the gap only
when `last_rx_time > UNIX_EPOCH`, and updates `last_rx_time`. A receive
error of kind `TimedOut` is ignored; any other receive error is printed
and the loop continues. Times are modelled as rationals with
`UNIX_EPOCH = 0`. -/

/-- The `std::io::ErrorKind` values distinguished by the receive loop:
`timedOut` versus everything else. -/
inductive IoErrorKind
  | timedOut
  | wouldBlock
  | connectionReset
  | other
  deriving DecidableEq

/-- Result of one `sock.recv_from` call: success paired with the
`SystemTime::now()` reading taken right after it, or an error kind. -/
inductive RecvResult
  | ok (now : ℚ)
  | err (kind : IoErrorKind)

/-- Mutable state of the receive thread: `last_rx_time` plus the two
shared vectors (src/rx.rs lines 40-46). -/
structure RxState where
  last_rx_time : ℚ
  t_rx_data : List ℚ
  t_diff_data : List ℚ
  deriving DecidableEq

/-- State of the receive thread before the first receive:
`last_rx_time = UNIX_EPOCH` and both vectors empty. -/
def rxInit : RxState := ⟨0, [], []⟩

/-- Result of one iteration of the receive loop body: an updated state
with an optional printed diagnostic, or a thread panic. -/
inductive RxStepResult
  | ok (s : RxState) (diag : Option String)
  | panicked (msg : String)
  deriving DecidableEq

/-- One iteration of the receive loop body (src/rx.rs lines 50-77). -/
def rxStep (s : RxState) (r : RecvResult) : RxStepResult :=
  match r with
  | .ok now =>
    if now < 0 then .panicked "error converting time"
    else if now < s.last_rx_time then .panicked "error converting time"
    else
      .ok
        ⟨now, s.t_rx_data ++ [now],
          if 0 < s.last_rx_time then s.t_diff_data ++ [now - s.last_rx_time]
          else s.t_diff_data⟩
        none
  | .err kind =>
    if kind = .timedOut then .ok s none
    else .ok s (some "sock recv_from failed")

/-- Receive loop run over the `SystemTime::now()` readings of a sequence
of successful receives; `none` when a time conversion panicked along the
way. -/
def rxRunFrom (s : RxState) : List ℚ → Option RxState
  | [] => some s
  | t :: ts =>
    match rxStep s (.ok t) with
    | .ok s' _ => rxRunFrom s' ts
    | .panicked _ => none

/-- Receive loop run from the freshly spawned thread's state. -/
def rxRun (ts : List ℚ) : Option RxState := rxRunFrom rxInit ts

/-- Model of `Rx::get_t_rx_data` (src/rx.rs lines 95-100): a copy of the
shared arrival-time vector. -/
def get_t_rx_data (s : RxState) : List ℚ := s.t_rx_data

/-- Model of `Rx::get_t_diff_data` (src/rx.rs lines 88-93): a copy of the
shared gap vector. -/
def get_t_diff_data (s : RxState) : List ℚ := s.t_diff_data

/-- Gap list of an arrival-time list: the difference between each arrival
time and its predecessor. -/
def gapsQ : List ℚ → List ℚ
  | [] => []
  | [_] => []
  | a :: b :: rest => (b - a) :: gapsQ (b :: rest)

/-- Gap values pushed by the receive loop while processing arrivals `ts`
with `last_rx_time = last` on entry, mirroring the
`last_rx_time > UNIX_EPOCH` guard. -/
def diffsFrom (last : ℚ) : List ℚ → List ℚ
  | [] => []
  | t :: ts => (if 0 < last then [t - last] else []) ++ diffsFrom t ts

/-- Length of the gap list: one less than the number of arrivals. -/
theorem gapsQ_length : ∀ ts : List ℚ, (gapsQ ts).length = ts.length - 1
  | [] => rfl
  | [_] => rfl
  | _ :: b :: rest => by
    simp only [gapsQ, List.length_cons, gapsQ_length (b :: rest)]
    simp

/-- Entry `k` of the gap list is the difference of arrivals `k+1` and
`k`. -/
theorem gapsQ_get : ∀ (ts : List ℚ) (k : Nat) (hk : k + 1 < ts.length)
    (hk' : k < (gapsQ ts).length),
    (gapsQ ts).get ⟨k, hk'⟩ =
      ts.get ⟨k + 1, hk⟩ - ts.get ⟨k, Nat.lt_of_succ_lt hk⟩
  | a :: b :: rest, 0, _, _ => rfl
  | a :: b :: rest, k + 1, hk, hk' => by
    have h1 : k + 1 < (b :: rest).length := by
      simpa using Nat.lt_of_succ_lt_succ hk
    have h2 : k < (gapsQ (b :: rest)).length := by
      simpa [gapsQ] using hk'
    simpa [gapsQ] using gapsQ_get (b :: rest) k h1 h2

/-- After the first arrival, the conditional gap pushes compute exactly
the successive differences. -/
theorem diffsFrom_pos :
    ∀ (t : ℚ) (ts : List ℚ), 0 < t → (∀ x ∈ ts, 0 < x) →
      diffsFrom t ts = gapsQ (t :: ts)
  | _, [], _, _ => by simp [diffsFrom, gapsQ]
  | t, r :: rs, ht, hpos => by
    have hr : 0 < r := hpos r (by simp)
    have hrs : ∀ x ∈ rs, 0 < x := fun x hx => hpos x (by simp [hx])
    simp [diffsFrom, gapsQ, ht, diffsFrom_pos r rs hr hrs]

/-- With `last_rx_time = 0` (the fresh state) and positive arrival times,
the pushed gaps are the successive differences of the arrivals. -/
theorem diffsFrom_zero (ts : List ℚ) (hpos : ∀ x ∈ ts, 0 < x) :
    diffsFrom 0 ts = gapsQ ts := by
  cases ts with
  | nil => rfl
  | cons t rest =>
    have ht : 0 < t := hpos t (by simp)
    have hrest : ∀ x ∈ rest, 0 < x := fun x hx => hpos x (by simp [hx])
    simp [diffsFrom, diffsFrom_pos t rest ht hrest]

/-- Main invariant of the receive loop: from a state whose `last_rx_time`
is nonnegative, processing a chain of non-decreasing arrival times
appends the arrivals to `t_rx_data`, appends the guarded gaps to
`t_diff_data`, and leaves `last_rx_time` at the final arrival. -/
theorem rxRunFrom_spec :
    ∀ (ts : List ℚ) (s : RxState), 0 ≤ s.last_rx_time →
      List.Chain (· ≤ ·) s.last_rx_time ts →
      rxRunFrom s ts =
        some
          ⟨ts.getLastD s.last_rx_time, s.t_rx_data ++ ts,
            s.t_diff_data ++ diffsFrom s.last_rx_time ts⟩
  | [], s, _, _ => by simp [rxRunFrom, diffsFrom]
  | t :: ts, s, h0, hchain => by
    rcases List.chain_cons.mp hchain with ⟨hle, hchain'⟩
    have ht0 : 0 ≤ t := le_trans h0 hle
    have hstep :
        rxStep s (.ok t) =
          .ok
            ⟨t, s.t_rx_data ++ [t],
              if 0 < s.last_rx_time then
                s.t_diff_data ++ [t - s.last_rx_time]
              else s.t_diff_data⟩
            none := by
      simp [rxStep, not_lt.mpr ht0, not_lt.mpr hle]
    have ih := rxRunFrom_spec ts
      ⟨t, s.t_rx_data ++ [t],
        if 0 < s.last_rx_time then s.t_diff_data ++ [t - s.last_rx_time]
        else s.t_diff_data⟩
      ht0 hchain'
    simp only [rxRunFrom, hstep, ih, diffsFrom]
    have hlast : ts.getLast?.getD t = (t :: ts).getLast?.getD s.last_rx_time := by
      rw [← List.getLastD_eq_getLast?, ← List.getLastD_eq_getLast?,
        List.getLastD_cons]
    by_cases hpos : 0 < s.last_rx_time <;> simp [hpos, hlast]

/-! ## GUI statistics loop (src/main.rs lines 531-552, 364-376)

The foreground loop drains the channel; for each message it pushes the
sample, and once at least two samples are present it computes
`diff = last_two[0].t - last_two[1].t`, pushes it onto `difference_data`,
and raises `largest_diff` when strictly exceeded. The reconfigure branch
clears `link_data`, `difference_data` and `largest_diff`. -/

/-- Statistics kept by the GUI `State` (src/main.rs lines 50-53): sample
times received over the channel, their successive differences, and the
largest difference seen. -/
structure MainStats where
  link_data : List ℚ
  difference_data : List ℚ
  largest_diff : ℚ
  deriving DecidableEq

/-- Statistics of a fresh `State` (src/main.rs lines 125-128). -/
def mainStatsInit : MainStats := ⟨[], [], 0⟩

/-- Statistics written by the reconfigure branch of `draw_gui`
(src/main.rs lines 374-376): everything cleared, `largest_diff = 0`. -/
def resetStats : MainStats := ⟨[], [], 0⟩

/-- Processing of one channel message (src/main.rs lines 534-546): push
the sample time; when the vector then holds at least two samples —
equivalently when it was nonempty before the push — push the difference
of the last two and raise `largest_diff` if strictly exceeded. -/
def recordMsg (s : MainStats) (t : ℚ) : MainStats :=
  match s.link_data.getLast? with
  | none => ⟨s.link_data ++ [t], s.difference_data, s.largest_diff⟩
  | some prev =>
    ⟨s.link_data ++ [t], s.difference_data ++ [t - prev],
      if s.largest_diff < t - prev then t - prev else s.largest_diff⟩

/-- Message-processing loop run from a given state. -/
def runMsgsFrom (s : MainStats) : List ℚ → MainStats
  | [] => s
  | t :: ts => runMsgsFrom (recordMsg s t) ts

/-- Message-processing loop run from the fresh state. -/
def runMsgs (ts : List ℚ) : MainStats := runMsgsFrom mainStatsInit ts

/-- Reference state after a sample sequence `l`: the samples, their gaps,
and the running maximum of the gaps floored at the initial `0.0`. -/
def stateOf (l : List ℚ) : MainStats := ⟨l, gapsQ l, (gapsQ l).foldl max 0⟩

/-- Appending a sample extends the gap list by the difference with the
previous last sample. -/
theorem gapsQ_append_singleton :
    ∀ (l : List ℚ) (t : ℚ),
      gapsQ (l ++ [t]) =
        gapsQ l ++
          (match l.getLast? with
           | none => []
           | some p => [t - p])
  | [], t => rfl
  | [a], t => rfl
  | a :: b :: rest, t => by
    simpa [gapsQ] using gapsQ_append_singleton (b :: rest) t

/-- The update `if largest < diff then diff else largest` is the binary
maximum. -/
theorem if_lt_eq_max (a d : ℚ) : (if a < d then d else a) = max a d := by
  rcases le_or_lt d a with h | h
  · simp [not_lt.mpr h, max_eq_left h]
  · simp [h, max_eq_right (le_of_lt h)]

/-- One message keeps the reference-state shape. -/
theorem recordMsg_stateOf (l : List ℚ) (t : ℚ) :
    recordMsg (stateOf l) t = stateOf (l ++ [t]) := by
  unfold recordMsg stateOf
  cases hl : l.getLast? with
  | none =>
    have : l = [] := List.getLast?_eq_none_iff.mp hl
    subst this
    simp [gapsQ]
  | some p =>
    simp only [gapsQ_append_singleton l t, hl, List.foldl_append,
      List.foldl_cons, List.foldl_nil, if_lt_eq_max]

/-- The message loop maps the reference state of `l` to the reference
state of `l ++ ts`. -/
theorem runMsgsFrom_stateOf :
    ∀ (ts l : List ℚ), runMsgsFrom (stateOf l) ts = stateOf (l ++ ts)
  | [], l => by simp [runMsgsFrom]
  | t :: ts, l => by
    have h := runMsgsFrom_stateOf ts (l ++ [t])
    simp only [runMsgsFrom, recordMsg_stateOf l t, h, List.append_assoc,
      List.singleton_append]

/-- The full run computes the reference state. -/
theorem runMsgs_eq_stateOf (ts : List ℚ) : runMsgs ts = stateOf ts := by
  have h := runMsgsFrom_stateOf ts []
  simpa [runMsgs, mainStatsInit, stateOf, gapsQ] using h

/-! ## Sequence numbers and reordering (Arrival Recorder, spec section 4.3)

No sequence-number handling exists under src/ — none of src/tx.rs,
src/rx.rs, src/link.rs or src/main.rs reads or writes a sequence counter
in the payload — so the reorder logic is modelled from the spec. -/

/-- Modelled from the spec: the sequenced variants' reorder tracking state
(spec section 4.3 step 2 — absent from src/): the last-seen sequence
number, `none` before the first observed packet, and the reorder
counter. -/
structure ReorderState where
  last_seq : Option Nat
  reorder_count : Nat
  deriving DecidableEq

/-- Modelled from the spec: one arrival's sequence-number check (spec
section 4.3 step 2 — absent from src/): the very first observed packet is
treated as "no prior sequence" and never counted; afterwards any value
not equal to `last + 1` increments the reorder counter, and the last-seen
number is always updated. -/
def reorderStep (s : ReorderState) (seq : Nat) : ReorderState :=
  match s.last_seq with
  | none => ⟨some seq, s.reorder_count⟩
  | some l =>
    if seq = l + 1 then ⟨some seq, s.reorder_count⟩
    else ⟨some seq, s.reorder_count + 1⟩

/-- Modelled from the spec: the Arrival Recorder's reorder tracking run
over a sequence of embedded sequence numbers. -/
def reorderRun (seqs : List Nat) : ReorderState :=
  seqs.foldl reorderStep ⟨none, 0⟩

/-! ## Bounded shutdown of the background loops

The loops are `while run.load(SeqCst) { body }` with, for the pacer, an
inner busy-wait `while elapsed < deadline && run.load(SeqCst) {}` and, for
the receiver, one `recv_from` call bounded by the 100 ms read timeout.
These step functions model the control locations; each step consumes one
read of the run flag (and, for the busy-wait, one clock poll). -/

/-- Control locations of the pacer loop (src/tx.rs lines 54-65,
src/link.rs Tx branch): the outer run-flag check, the busy-wait poll, and
loop exit. -/
inductive PacerPhase
  | outerCheck
  | innerSpin
  | done
  deriving DecidableEq

/-- Pacer loop control state plus the number of datagrams sent. -/
structure PacerLoopState where
  phase : PacerPhase
  sends : Nat
  deriving DecidableEq

/-- One control step of the pacer loop, driven by the run-flag value read
at this step and whether the clock poll says the deadline was reached: at
the outer check a false flag exits; the busy-wait keeps spinning only
while `elapsed < deadline && run`, and on exiting it one datagram is sent
and counted before control returns to the outer check. -/
def pacerStep (flag deadlineReached : Bool) (s : PacerLoopState) :
    PacerLoopState :=
  match s.phase with
  | .outerCheck => if flag then ⟨.innerSpin, s.sends⟩ else ⟨.done, s.sends⟩
  | .innerSpin =>
    if !deadlineReached && flag then ⟨.innerSpin, s.sends⟩
    else ⟨.outerCheck, s.sends + 1⟩
  | .done => ⟨.done, s.sends⟩

/-- Control locations of the receive loop (src/rx.rs lines 49-77,
src/link.rs Rx branch): the run-flag check, one bounded-timeout
`recv_from` call, and loop exit. -/
inductive RxPhase
  | check
  | recvCall
  | done
  deriving DecidableEq

/-- Receive loop control state plus the number of completed `recv_from`
calls. -/
structure RxLoopState where
  phase : RxPhase
  recvCalls : Nat
  deriving DecidableEq

/-- One control step of the receive loop: at the check a false flag
exits; a `recv_from` call returns within its 100 ms timeout and control
returns to the check. -/
def rxLoopStep (flag : Bool) (s : RxLoopState) : RxLoopState :=
  match s.phase with
  | .check => if flag then ⟨.recvCall, s.recvCalls⟩ else ⟨.done, s.recvCalls⟩
  | .recvCall => ⟨.check, s.recvCalls + 1⟩
  | .done => ⟨.done, s.recvCalls⟩

/-! ## Theorems for claims C1 and C2 -/

/-- C1, counterexample: the claim that after `k` sends the accumulated
`next_tx_time_us` equals `(k+1) * send_interval_us` for every `k ≥ 1` fails
on the code, because `next_tx_time_us` is an `i32`: at
`send_interval_us = 1000` µs it wraps after 2147483 sends
(`2147484 * 1000 = 2147484000 > 2^31 - 1`). -/
theorem pacer_accumulator_overflow_counterexample :
    txNextAfter 1000 2147483 ≠ (2147483 + 1) * 1000 := by
  rw [txNextAfter_closed 1000 (by decide) (by decide) 2147483]
  decide

/-- C1, amended: as long as `(k+1) * send_interval_us` stays below `2^31`
(no `i32` overflow), the deadline used by the pacer busy-wait before the
`k`-th send (`k ≥ 1`) is exactly `start_time + k * send_interval_us`, the
accumulator after `k` sends is exactly `(k+1) * send_interval_us`, and the
accumulator update is independent of the observed clock value, so an
overrun deadline never changes the schedule (no catch-up bursting): every
subsequent deadline is still measured from the original `start_time`. -/
theorem pacer_deadline_schedule (tbegin si : Int) (k : Nat)
    (hk : 1 ≤ k) (hsi : 0 < si) (hbound : ((k : Int) + 1) * si < 2 ^ 31) :
    txDeadline tbegin si k = tbegin + (k : Int) * si
    ∧ txNextAfter si k = ((k : Int) + 1) * si
    ∧ ∀ now now' x, txStepNext si now x = txStepNext si now' x := by
  have hk1 : (1 : Int) ≤ (k : Int) := by exact_mod_cast hk
  have hksi : (k : Int) * si ≤ ((k : Int) + 1) * si := by nlinarith
  have hsi2 : si < 2 ^ 31 := by nlinarith
  have hsi1 : -2 ^ 31 ≤ si := by omega
  have hknn : 0 ≤ (k : Int) * si := by positivity
  refine ⟨?_, ?_, fun now now' x => rfl⟩
  · unfold txDeadline
    rw [txNextAfter_closed si hsi1 hsi2 (k - 1)]
    have hcast : ((k - 1 : Nat) : Int) + 1 = (k : Int) := by omega
    rw [hcast, wrap32_eq_self (by omega) (by omega)]
  · rw [txNextAfter_closed si hsi1 hsi2 k, wrap32_eq_self (by nlinarith) hbound]

/-- C1, witness: the amended schedule theorem applied at
`start_time = 0`, `send_interval_us = 1000`, `k = 3`. -/
theorem pacer_deadline_schedule_witness :
    txDeadline 0 1000 3 = 0 + (3 : Int) * 1000
    ∧ txNextAfter 1000 3 = ((3 : Int) + 1) * 1000
    ∧ ∀ now now' x, txStepNext 1000 now x = txStepNext 1000 now' x := by
  have h := pacer_deadline_schedule 0 1000 3 (by decide) (by decide) (by norm_num)
  simpa using h

/-- C2: in the stop path the run flag is cleared strictly before the join
and the join is the final effect (the stop is complete only after it); in
the reconfigure path the flag store precedes the join, the old thread's
join precedes both the new socket bind and the new thread spawn, at most
one thread is spawned, and on the bind-failure and parse-failure paths no
thread is spawned at all — so two background contexts are never live for
the same logical link. -/
theorem stop_reconfigure_ordering :
    txDropTrace.indexOf .storeRunFalse < txDropTrace.indexOf .joinThread
    ∧ txDropTrace.getLast? = some .joinThread
    ∧ reconfigureTrace.indexOf .storeRunFalse
        < reconfigureTrace.indexOf .joinThread
    ∧ reconfigureTrace.indexOf .joinThread
        < reconfigureTrace.indexOf .bindSocket
    ∧ reconfigureTrace.indexOf .joinThread
        < reconfigureTrace.indexOf .spawnThread
    ∧ reconfigureTrace.count .spawnThread ≤ 1
    ∧ reconfigureTraceBindFail.count .spawnThread = 0
    ∧ reconfigureTraceParseFail.count .spawnThread = 0 := by
  decide

/-! ## Theorems for claims C3 and C4 -/

/-- Concrete running Rx link for the C3 counterexample. -/
def c3Link : LinkFields :=
  ⟨.Rx, "0.0.0.0", 5005, "127.0.0.1", 5005, 500, 1000⟩

/-- Desired configuration differing from `c3Link` only in the target
port. -/
def c3Desired : GuiConfig :=
  ⟨.Rx, "0.0.0.0", 5005, "127.0.0.1", 6000, 500, 1000, true⟩

/-- C3, counterexample: a target-port mismatch does not force a stop/start
cycle when the link is in Rx mode — `draw_gui` compares only the bind IP
and bind port there — refuting the claim that a mismatch in any single one
of the seven listed fields forces a restart. -/
theorem reconfigure_check_counterexample :
    c3Desired.target_port ≠ c3Link.target_port
    ∧ needsRestart c3Desired c3Link = false := by
  decide

/-- C3, amended: a restart is skipped exactly when the previous start
succeeded and the desired configuration agrees with the running link on
direction, payload size, send interval, and the direction-relevant
address fields — in Tx mode the target IP, target port and bind IP; in Rx
mode the bind IP and bind port. In particular a configuration identical to
the running one (with `link_ok` set) causes no stop/start cycle, while a
mismatch in any compared field forces one. -/
theorem reconfigure_check_characterization (st : GuiConfig)
    (link : LinkFields) :
    needsRestart st link = false ↔
      st.link_ok = true ∧ st.link_mode = link.link_mode
      ∧ st.packet_size = link.packet_size
      ∧ st.send_interval_us = link.send_interval_us
      ∧ ((st.link_mode = .Tx ∧ st.target_ip = link.target_address
            ∧ st.target_port = link.target_port
            ∧ st.bind_ip = link.bind_address)
          ∨ (st.link_mode = .Rx ∧ st.bind_ip = link.bind_address
            ∧ st.bind_port = link.bind_port)) := by
  cases hm : st.link_mode <;>
    simp [needsRestart, address_and_port_ok, hm] <;> tauto

/-- C4, counterexample: a syntactically invalid address string makes each
constructor panic with message "error" instead of returning an error
`Result` to the caller. -/
theorem start_invalid_address_counterexample :
    (Tx.new .err .ok .ok .ok).outcome = .panicked "error"
    ∧ (Rx.new .err .ok .ok).outcome = .panicked "error"
    ∧ (Link.new .err .ok .ok).outcome = .panicked "error"
    ∧ StartOutcome.panicked "error" ≠ .errReturned := by
  decide

/-- C4, amended: an invalid address string causes `Tx::new`, `Rx::new` and
`Link::new` to panic (via `expect`) rather than return an error `Result`;
with parseable addresses, a socket bind or read-timeout failure is
returned synchronously as an `Err`; and in every non-`Ok` case no
background thread has been spawned, so the link remains in its prior
state. -/
theorem start_error_surfacing (pt : ParseOutcome) (b t : SockOutcome) :
    Tx.new .err pt b t = ⟨.panicked "error", 0⟩
    ∧ Tx.new .ok .err b t = ⟨.panicked "error", 0⟩
    ∧ Tx.new .ok .ok .err t = ⟨.errReturned, 0⟩
    ∧ Tx.new .ok .ok .ok .err = ⟨.errReturned, 0⟩
    ∧ Tx.new .ok .ok .ok .ok = ⟨.okReturned, 1⟩
    ∧ Rx.new .err b t = ⟨.panicked "error", 0⟩
    ∧ Rx.new .ok .err t = ⟨.errReturned, 0⟩
    ∧ Rx.new .ok .ok .err = ⟨.errReturned, 0⟩
    ∧ Rx.new .ok .ok .ok = ⟨.okReturned, 1⟩
    ∧ Link.new .err b t = ⟨.panicked "error", 0⟩
    ∧ Link.new .ok .err t = ⟨.errReturned, 0⟩
    ∧ Link.new .ok .ok .err = ⟨.errReturned, 0⟩
    ∧ Link.new .ok .ok .ok = ⟨.okReturned, 1⟩ :=
  ⟨rfl, rfl, rfl, rfl, rfl, rfl, rfl, rfl, rfl, rfl, rfl, rfl, rfl⟩

/-! ## Theorems for claims C5, C8 and C10 -/

/-- C5: a receive error never panics the loop and never changes the
recorded state; a `TimedOut` error produces no output (the loop just goes
back to re-check the run flag), and every other error kind produces
exactly a printed diagnostic, after which the loop continues. No receive
error terminates the loop or surfaces as a link-level failure. -/
theorem rx_recv_error_handling (s : RxState) (kind : IoErrorKind) :
    rxStep s (.err kind) =
      .ok s
        (if kind = .timedOut then none else some "sock recv_from failed") := by
  unfold rxStep
  by_cases h : kind = .timedOut <;> simp [h]

/-- C8: for positive, non-decreasing clock readings, after `n` successful
receives `t_rx_data` holds exactly the `n` arrival timestamps in arrival
order, `t_diff_data` holds exactly the `n - 1` gaps, the `k`-th gap is the
difference between the `(k+1)`-th and `k`-th arrival times (so the first
arrival contributes no gap), and the getters on a fresh link return empty
vectors. -/
theorem rx_arrival_data_counts (ts : List ℚ) (hpos : ∀ t ∈ ts, 0 < t)
    (hchain : ts.Chain' (· ≤ ·)) :
    (rxRun ts).map get_t_rx_data = some ts
    ∧ (rxRun ts).map get_t_diff_data = some (gapsQ ts)
    ∧ (gapsQ ts).length = ts.length - 1
    ∧ (∀ (k : Nat) (hk : k + 1 < ts.length) (hk' : k < (gapsQ ts).length),
        (gapsQ ts).get ⟨k, hk'⟩ =
          ts.get ⟨k + 1, hk⟩ - ts.get ⟨k, Nat.lt_of_succ_lt hk⟩)
    ∧ get_t_rx_data rxInit = [] ∧ get_t_diff_data rxInit = [] := by
  have hchain0 : List.Chain (· ≤ ·) (0 : ℚ) ts := by
    cases ts with
    | nil => exact List.Chain.nil
    | cons t rest =>
      exact List.chain_cons.mpr ⟨le_of_lt (hpos t (by simp)), hchain⟩
  have hrun := rxRunFrom_spec ts rxInit le_rfl hchain0
  have hd : diffsFrom 0 ts = gapsQ ts := diffsFrom_zero ts hpos
  refine ⟨?_, ?_, gapsQ_length ts, gapsQ_get ts, rfl, rfl⟩
  · simp only [rxRun, hrun, Option.map_some']
    simp [get_t_rx_data, rxInit]
  · simp only [rxRun, hrun, Option.map_some']
    simp [get_t_diff_data, rxInit, hd]

/-- C8, witness: the arrival-data invariant applied to the concrete
arrival times `[1, 3, 4]`. -/
theorem rx_arrival_data_counts_witness :
    (rxRun [(1 : ℚ), 3, 4]).map get_t_rx_data = some [1, 3, 4]
    ∧ (rxRun [(1 : ℚ), 3, 4]).map get_t_diff_data =
        some (gapsQ [(1 : ℚ), 3, 4])
    ∧ (gapsQ [(1 : ℚ), 3, 4]).length = [(1 : ℚ), 3, 4].length - 1
    ∧ (∀ (k : Nat) (hk : k + 1 < [(1 : ℚ), 3, 4].length)
        (hk' : k < (gapsQ [(1 : ℚ), 3, 4]).length),
        (gapsQ [(1 : ℚ), 3, 4]).get ⟨k, hk'⟩ =
          [(1 : ℚ), 3, 4].get ⟨k + 1, hk⟩ -
            [(1 : ℚ), 3, 4].get ⟨k, Nat.lt_of_succ_lt hk⟩)
    ∧ get_t_rx_data rxInit = [] ∧ get_t_diff_data rxInit = [] :=
  rx_arrival_data_counts [1, 3, 4] (by norm_num)
    (by norm_num [List.chain'_cons])

/-- C10: if the wall clock reads an earlier time at a later arrival than
the recorded `last_rx_time`, the `duration_since` expectation fails and
the receive thread panics before recording any sample. -/
theorem rx_clock_backstep_panics (s : RxState) (now : ℚ)
    (h : now < s.last_rx_time) :
    rxStep s (.ok now) = .panicked "error converting time" := by
  unfold rxStep
  by_cases h0 : now < 0 <;> simp [h0, h]

/-- C10, witness: the clock-backstep panic at `last_rx_time = 5`,
`now = 3`. -/
theorem rx_clock_backstep_panics_witness :
    (3 : ℚ) < (RxState.mk 5 [5] []).last_rx_time
    ∧ rxStep (RxState.mk 5 [5] []) (.ok 3) =
        .panicked "error converting time" :=
  ⟨by norm_num, rx_clock_backstep_panics (RxState.mk 5 [5] []) 3 (by norm_num)⟩

/-! ## Theorems for claims C6, C7 and C9 -/

/-- C6, counterexample: `largest_diff` starts at `0.0` and is raised only
when strictly exceeded, so when the only observed gap is negative (the
wall clock stepped backwards between two samples: times `[10, 9]`) it
stays `0`, which is not the true maximum `-1` of the observed gaps —
refuting "after processing any sequence of samples it equals the true
maximum of all gaps observed so far". -/
theorem largest_diff_counterexample :
    (runMsgs [10, 9]).difference_data = [-1]
    ∧ (runMsgs [10, 9]).largest_diff = 0
    ∧ (0 : ℚ) ≠ -1 := by
  refine ⟨?_, ?_, by norm_num⟩ <;>
    norm_num [runMsgs, runMsgsFrom, recordMsg, mainStatsInit]

/-- C6, amended: `largest_diff` is monotonically non-decreasing across
every sample-processing step; after processing any sequence of samples it
equals the maximum of `0` (its initial value) and all gaps observed so
far — hence the true maximum whenever any gap is nonnegative, but it
floors negative gaps at `0`; and the restart branch resets it to `0`. -/
theorem largest_diff_invariant :
    (∀ (s : MainStats) (t : ℚ),
      s.largest_diff ≤ (recordMsg s t).largest_diff)
    ∧ (∀ ts : List ℚ,
        (runMsgs ts).difference_data = gapsQ ts
        ∧ (runMsgs ts).largest_diff = (gapsQ ts).foldl max 0)
    ∧ resetStats.largest_diff = 0 := by
  refine ⟨fun s t => ?_, fun ts => ?_, rfl⟩
  · unfold recordMsg
    cases s.link_data.getLast? with
    | none => exact le_rfl
    | some p =>
      simp only [if_lt_eq_max]
      exact le_max_left _ _
  · rw [runMsgs_eq_stateOf ts]
    exact ⟨rfl, rfl⟩

/-- C7, counterexample: feeding the sequence numbers `[0,1,2,4,3,5]` into
the spec's reorder rule — every arrival not equal to last-seen plus one
increments the counter, the first packet excepted — yields a reorder
count of 3 (at arrivals 4, 3 and 5), not 1 as the claim states. -/
theorem reorder_count_counterexample :
    (reorderRun [0, 1, 2, 4, 3, 5]).reorder_count = 3 ∧ (3 : Nat) ≠ 1 := by
  decide

/-- C7, amended: the first observed packet is never counted as a reorder;
every later arrival increments the reorder counter exactly when its
sequence number differs from last-seen plus one; consequently the arrival
sequence `[0,1,2,4,3,5]` ends with a reorder count of exactly 3. -/
theorem reorder_detection (c l seq : Nat) :
    (reorderRun [0, 1, 2, 4, 3, 5]).reorder_count = 3
    ∧ (reorderStep ⟨none, c⟩ seq).reorder_count = c
    ∧ (reorderStep ⟨some l, c⟩ seq).reorder_count =
        (if seq = l + 1 then c else c + 1) := by
  refine ⟨by decide, rfl, ?_⟩
  by_cases h : seq = l + 1 <;> simp [reorderStep, h]

/-- C9: once every read of the run flag returns false, each background
loop reaches its exit within two control steps from any control location:
the pacer performs at most one further send (the busy-wait re-checks the
flag on every poll, so it cannot keep spinning), and the receiver
completes at most one further bounded-timeout receive call. -/
theorem loop_shutdown_bounded (s : PacerLoopState) (d1 d2 : Bool)
    (r : RxLoopState) :
    (pacerStep false d2 (pacerStep false d1 s)).phase = .done
    ∧ (pacerStep false d2 (pacerStep false d1 s)).sends ≤ s.sends + 1
    ∧ (rxLoopStep false (rxLoopStep false r)).phase = .done
    ∧ (rxLoopStep false (rxLoopStep false r)).recvCalls ≤ r.recvCalls + 1 := by
  obtain ⟨p, n⟩ := s
  obtain ⟨q, m⟩ := r
  cases p <;> cases q <;> simp [pacerStep, rxLoopStep]

end UdpSendTest
